import Mathlib

/-!
Shallow embedding of the SwitchClientLib protocol core
(src/switchcontroller/src/lib.rs): the Button table, the ControllerState
encoder, and the SwitchController command session over an abstract
serial transport.
-/

/-- A Nintendo Switch controller button (enum Button in lib.rs). -/
inductive Button where
  | A
  | B
  | X
  | Y
  | L
  | R
  | ZL
  | ZR
  | Plus
  | Minus
  | Home
  | Capture
  | LStick
  | RStick
  | DpadUp
  | DpadDown
  | DpadLeft
  | DpadRight
deriving DecidableEq, Fintype

/-- All buttons in STATE bit-order (index 0..17); Button::ALL in lib.rs. -/
def Button.ALL : List Button :=
  [Button.A, Button.B, Button.X, Button.Y, Button.L, Button.R,
   Button.ZL, Button.ZR, Button.Plus, Button.Minus, Button.Home,
   Button.Capture, Button.LStick, Button.RStick, Button.DpadUp,
   Button.DpadDown, Button.DpadLeft, Button.DpadRight]

/-- Wire name of a button; Button::as_str in lib.rs. -/
def Button.as_str : Button → String
  | Button.A => "a"
  | Button.B => "b"
  | Button.X => "x"
  | Button.Y => "y"
  | Button.L => "l"
  | Button.R => "r"
  | Button.ZL => "zl"
  | Button.ZR => "zr"
  | Button.Plus => "plus"
  | Button.Minus => "minus"
  | Button.Home => "home"
  | Button.Capture => "capture"
  | Button.LStick => "l_stick"
  | Button.RStick => "r_stick"
  | Button.DpadUp => "dpad_up"
  | Button.DpadDown => "dpad_down"
  | Button.DpadLeft => "dpad_left"
  | Button.DpadRight => "dpad_right"

/-- The canonical bit position of a button: its index in Button.ALL
(the position computed inside ControllerState::set_button). -/
def Button.bitIndex (b : Button) : Nat :=
  Button.ALL.findIdx (fun x => x == b)

/-- An analog stick (enum Stick in lib.rs). -/
inductive Stick where
  | Left
  | Right
deriving DecidableEq

/-- Wire name of a stick; Stick::as_str in lib.rs. -/
def Stick.as_str : Stick → String
  | Stick.Left => "l_stick"
  | Stick.Right => "r_stick"

/-- Decimal digits of a positive Nat, least significant first, with
structural fuel (fuel n suffices since n shrinks by division by 10). -/
def natDigitsAux : Nat → Nat → List Char
  | 0, _ => []
  | _ + 1, 0 => []
  | fuel + 1, n + 1 =>
      Char.ofNat (48 + (n + 1) % 10) :: natDigitsAux fuel ((n + 1) / 10)

/-- Decimal rendering of a Nat. -/
def natStr (n : Nat) : String :=
  if n = 0 then "0" else String.mk (natDigitsAux n n).reverse

/-- Left-pad a string with the digit 0 up to width k. -/
def padZeros (k : Nat) (s : String) : String :=
  String.mk (List.replicate (k - s.length) '0') ++ s

/-- Modelled from the spec: the host's float-to-string formatter used by
the Rust format! machinery for f32 values is library code outside src/.
The spec pins it down as "the shortest round-trip decimal representation
that drops a trailing .0" (0.0 renders as 0, -1.0 as -1, 0.5 as 0.5).
Stick coordinates are embedded as exact rationals, and this renders a
rational with a terminating decimal expansion as its minimal exact
decimal, dropping a trailing .0 — which coincides with the shortest
round-trip form on the exactly-representable values the protocol
examples use. A rational without a terminating expansion (impossible for
a binary float) falls back to fraction notation. -/
def fmtAbs (n d : Nat) : String :=
  match (List.range 200).find? (fun k => decide (d ∣ 10 ^ k)) with
  | some k =>
      if k = 0 then natStr (n / d)
      else natStr (n * 10 ^ k / d / 10 ^ k) ++ "." ++
        padZeros k (natStr (n * 10 ^ k / d % 10 ^ k))
  | none => natStr n ++ "/" ++ natStr d

/-- Sign and magnitude of the rendered rational; see fmtAbs for the
magnitude rendering. -/
def fmtF32 (q : ℚ) : String :=
  (if q < 0 then "-" else "") ++ fmtAbs q.num.natAbs q.den

/-- Full controller state for the STATE command (struct ControllerState
in lib.rs). The Rust field is a [bool; 18] array indexed by canonical
bit position; stick coordinates are f32 pairs, embedded as exact
rationals. -/
structure ControllerState where
  buttons : Fin 18 → Bool
  left_stick : Option (ℚ × ℚ)
  right_stick : Option (ℚ × ℚ)

/-- ControllerState::new — the Default state: all buttons false, both
sticks unset. -/
def ControllerState.new : ControllerState :=
  { buttons := fun _ => false, left_stick := none, right_stick := none }

/-- ControllerState::set_button: looks up the button's position in
Button::ALL (the Option models the unwrap of the position lookup and the
array-bounds check: none would be a panic) and sets that flag. -/
def ControllerState.set_button (s : ControllerState) (button : Button)
    (pressed : Bool) : Option ControllerState :=
  match Button.ALL.findIdx? (fun b => b == button) with
  | none => none
  | some idx =>
      if _h : idx < 18 then
        some { s with buttons := fun j => if j.val = idx then pressed else s.buttons j }
      else none

/-- ControllerState::set_left_stick. -/
def ControllerState.set_left_stick (s : ControllerState) (horizontal vertical : ℚ) :
    ControllerState :=
  { s with left_stick := some (horizontal, vertical) }

/-- ControllerState::set_right_stick. -/
def ControllerState.set_right_stick (s : ControllerState) (horizontal vertical : ℚ) :
    ControllerState :=
  { s with right_stick := some (horizontal, vertical) }

/-- The 18-character 1/0 bit string built by ControllerState::to_command
from the buttons array. -/
def ControllerState.bits (s : ControllerState) : String :=
  String.mk (List.ofFn (fun i : Fin 18 => if s.buttons i then '1' else '0'))

/-- ControllerState::to_command: "STATE " plus the bit string, then the
stick suffix (left pair if set, right pair only after a left pair, with
the literal 0.0 0.0 placeholder when only the right stick is set). -/
def ControllerState.to_command (s : ControllerState) : String :=
  let cmd := "STATE " ++ s.bits
  match s.left_stick with
  | some (lh, lv) =>
      let cmd := cmd ++ " " ++ fmtF32 lh ++ " " ++ fmtF32 lv
      match s.right_stick with
      | some (rh, rv) => cmd ++ " " ++ fmtF32 rh ++ " " ++ fmtF32 rv
      | none => cmd
  | none =>
      match s.right_stick with
      | some (rh, rv) => cmd ++ " 0.0 0.0 " ++ fmtF32 rh ++ " " ++ fmtF32 rv
      | none => cmd

/-- An abstract transport error (std::io::Error is opaque to this core;
only its identity matters: failures are surfaced unmodified). -/
structure TransportError where
  code : Nat
deriving DecidableEq

/-- The abstract serial transport the session owns: the chunks written so
far, in order, plus a fault model saying whether the next write or flush
fails and with which error. -/
structure SerialPort where
  buffer : List String
  writeErr : Option TransportError
  flushErr : Option TransportError
deriving DecidableEq

/-- A write appends one chunk to the transport, or fails with the
port's write error. -/
def SerialPort.write (p : SerialPort) (s : String) :
    Except TransportError SerialPort :=
  match p.writeErr with
  | some e => Except.error e
  | none => Except.ok { p with buffer := p.buffer ++ [s] }

/-- A flush either succeeds (no observable effect on the chunk list) or
fails with the port's flush error. -/
def SerialPort.flush (p : SerialPort) : Except TransportError SerialPort :=
  match p.flushErr with
  | some e => Except.error e
  | none => Except.ok p

/-- A connection to the Pico device over serial (struct SwitchController
in lib.rs): owns one port exclusively. -/
structure SwitchController where
  port : SerialPort
deriving DecidableEq

/-- Rust slice join with a separator, as used by names.join(" "). -/
def joinSpace : List String → String
  | [] => ""
  | [x] => x
  | x :: y :: xs => x ++ " " ++ joinSpace (y :: xs)

/-- SwitchController::send: write the command followed by a newline,
then flush; the first failure is returned unmodified. -/
def SwitchController.send (c : SwitchController) (cmd : String) :
    Except TransportError SwitchController :=
  match c.port.write (cmd ++ "\n") with
  | Except.error e => Except.error e
  | Except.ok p =>
      match p.flush with
      | Except.error e => Except.error e
      | Except.ok p' => Except.ok { port := p' }

/-- SwitchController::press. -/
def SwitchController.press (c : SwitchController) (buttons : List Button) :
    Except TransportError SwitchController :=
  c.send ("PRESS " ++ joinSpace (buttons.map Button.as_str))

/-- SwitchController::hold. -/
def SwitchController.hold (c : SwitchController) (buttons : List Button) :
    Except TransportError SwitchController :=
  c.send ("HOLD " ++ joinSpace (buttons.map Button.as_str))

/-- SwitchController::release. -/
def SwitchController.release (c : SwitchController) (buttons : List Button) :
    Except TransportError SwitchController :=
  c.send ("RELEASE " ++ joinSpace (buttons.map Button.as_str))

/-- SwitchController::stick. -/
def SwitchController.stick (c : SwitchController) (stick : Stick)
    (horizontal vertical : ℚ) : Except TransportError SwitchController :=
  c.send ("STICK " ++ stick.as_str ++ " " ++ fmtF32 horizontal ++ " " ++ fmtF32 vertical)

/-- SwitchController::state. -/
def SwitchController.state (c : SwitchController) (s : ControllerState) :
    Except TransportError SwitchController :=
  c.send s.to_command

/-- SwitchController::sleep. -/
def SwitchController.sleep (c : SwitchController) (seconds : ℚ) :
    Except TransportError SwitchController :=
  c.send ("SLEEP " ++ fmtF32 seconds)

/-- A string with no line terminator in it: commands must be single
lines. -/
def noNL (s : String) : Prop := '\n' ∉ s.data

instance (s : String) : Decidable (noNL s) :=
  inferInstanceAs (Decidable ('\n' ∉ s.data))

lemma data_append (a b : String) : (a ++ b).data = a.data ++ b.data := by
  cases a; cases b; rfl

lemma noNL_append {a b : String} (ha : noNL a) (hb : noNL b) : noNL (a ++ b) := by
  simp only [noNL, data_append, List.mem_append] at *
  exact fun h => h.elim ha hb

lemma char_digit_ne_nl (d : Nat) (hd : d < 10) : Char.ofNat (48 + d) ≠ '\n' := by
  interval_cases d <;> decide

lemma natDigitsAux_no_nl : ∀ fuel n, '\n' ∉ natDigitsAux fuel n := by
  intro fuel
  induction fuel with
  | zero => intro n; simp [natDigitsAux]
  | succ f ih =>
      intro n
      match n with
      | 0 => simp [natDigitsAux]
      | Nat.succ m =>
          simp only [natDigitsAux, List.mem_cons, not_or]
          refine ⟨fun h => ?_, ih _⟩
          exact char_digit_ne_nl _ (Nat.mod_lt _ (by norm_num)) h.symm

lemma noNL_natStr (n : Nat) : noNL (natStr n) := by
  unfold natStr
  split
  · decide
  · simpa [noNL, List.mem_reverse] using natDigitsAux_no_nl n n

lemma noNL_padZeros (k : Nat) {s : String} (hs : noNL s) : noNL (padZeros k s) := by
  refine noNL_append ?_ hs
  intro h
  have h2 : ('\n' : Char) = '0' := List.eq_of_mem_replicate h
  simp at h2

lemma noNL_fmtAbs (n d : Nat) : noNL (fmtAbs n d) := by
  unfold fmtAbs
  cases (List.range 200).find? (fun k => decide (d ∣ 10 ^ k)) with
  | none => exact noNL_append (noNL_append (noNL_natStr _) (by decide)) (noNL_natStr _)
  | some k =>
      show noNL (if k = 0 then natStr (n / d)
        else natStr (n * 10 ^ k / d / 10 ^ k) ++ "." ++
          padZeros k (natStr (n * 10 ^ k / d % 10 ^ k)))
      rcases eq_or_ne k 0 with hk | hk
      · rw [if_pos hk]
        exact noNL_natStr _
      · rw [if_neg hk]
        exact noNL_append (noNL_append (noNL_natStr _) (by decide))
          (noNL_padZeros _ (noNL_natStr _))

lemma noNL_fmtF32 (q : ℚ) : noNL (fmtF32 q) := by
  unfold fmtF32
  refine noNL_append ?_ (noNL_fmtAbs _ _)
  by_cases h : q < 0
  · rw [if_pos h]; decide
  · rw [if_neg h]; decide

lemma noNL_as_str (b : Button) : noNL b.as_str := by
  cases b <;> decide

lemma noNL_joinSpace {l : List String} (h : ∀ s ∈ l, noNL s) : noNL (joinSpace l) := by
  induction l with
  | nil => decide
  | cons x xs ih =>
      cases xs with
      | nil => simpa [joinSpace] using h x (by simp)
      | cons y ys =>
          refine noNL_append (noNL_append (h x (by simp)) (by decide)) ?_
          exact ih (fun s hs => h s (List.mem_cons_of_mem _ hs))

lemma noNL_bits (s : ControllerState) : noNL s.bits := by
  intro h
  have h1 : ('\n' : Char) ∈
      List.ofFn (fun i : Fin 18 => if s.buttons i then '1' else '0') := h
  obtain ⟨i, hi⟩ := (List.mem_ofFn _ _).mp h1
  by_cases hb : s.buttons i = true <;> simp [hb] at hi

lemma noNL_to_command (s : ControllerState) : noNL s.to_command := by
  obtain ⟨btns, ls, rs⟩ := s
  have hbits : noNL ("STATE " ++ ControllerState.bits ⟨btns, ls, rs⟩) :=
    noNL_append (by decide) (noNL_bits _)
  cases ls with
  | none =>
      cases rs with
      | none => simpa only [ControllerState.to_command] using hbits
      | some p =>
          obtain ⟨rh, rv⟩ := p
          simp only [ControllerState.to_command]
          exact noNL_append (noNL_append (noNL_append (noNL_append hbits
            (by decide)) (noNL_fmtF32 rh)) (by decide)) (noNL_fmtF32 rv)
  | some p =>
      obtain ⟨lh, lv⟩ := p
      have hleft : noNL ("STATE " ++ ControllerState.bits ⟨btns, some (lh, lv), rs⟩ ++
          " " ++ fmtF32 lh ++ " " ++ fmtF32 lv) :=
        noNL_append (noNL_append (noNL_append (noNL_append hbits
          (by decide)) (noNL_fmtF32 lh)) (by decide)) (noNL_fmtF32 lv)
      cases rs with
      | none => simpa only [ControllerState.to_command] using hleft
      | some p =>
          obtain ⟨rh, rv⟩ := p
          simp only [ControllerState.to_command]
          exact noNL_append (noNL_append (noNL_append (noNL_append hleft
            (by decide)) (noNL_fmtF32 rh)) (by decide)) (noNL_fmtF32 rv)

lemma findIdx_eq_bitIndex (b : Button) :
    Button.ALL.findIdx? (fun x => x == b) = some b.bitIndex := by
  revert b; decide

lemma bitIndex_lt (b : Button) : b.bitIndex < 18 := by
  revert b; decide

lemma send_ok (c : SwitchController) (cmd : String)
    (hw : c.port.writeErr = none) (hf : c.port.flushErr = none) :
    c.send cmd =
      Except.ok ⟨{ c.port with buffer := c.port.buffer ++ [cmd ++ "\n"] }⟩ := by
  simp [SwitchController.send, SerialPort.write, SerialPort.flush, hw, hf]

lemma send_write_error (c : SwitchController) (cmd : String) (e : TransportError)
    (hw : c.port.writeErr = some e) : c.send cmd = Except.error e := by
  simp [SwitchController.send, SerialPort.write, hw]

lemma send_flush_error (c : SwitchController) (cmd : String) (e : TransportError)
    (hw : c.port.writeErr = none) (hf : c.port.flushErr = some e) :
    c.send cmd = Except.error e := by
  simp [SwitchController.send, SerialPort.write, SerialPort.flush, hw, hf]

lemma send_error_cases (c : SwitchController) (cmd : String) (e : TransportError)
    (h : c.send cmd = Except.error e) :
    c.port.writeErr = some e ∨
      (c.port.writeErr = none ∧ c.port.flushErr = some e) := by
  cases hw : c.port.writeErr with
  | some e2 =>
      rw [send_write_error c cmd e2 hw] at h
      injection h with h2
      subst h2
      exact Or.inl rfl
  | none =>
      cases hf : c.port.flushErr with
      | some e2 =>
          rw [send_flush_error c cmd e2 hw hf] at h
          injection h with h2
          subst h2
          exact Or.inr ⟨rfl, rfl⟩
      | none =>
          rw [send_ok c cmd hw hf] at h
          exact absurd h (by simp)

/-- C1: the Button wire-name and bit-position mapping is a bijection: the
18 variants of Button.ALL are distinct, exhaust the type, have length 18,
and map to the 18 distinct canonical wire names in order; and encoding a
fresh state with exactly one button set yields a bit string with a single
1 at that button's canonical index and 0 elsewhere. -/
theorem c1_button_bijection_single_bit :
    Button.ALL.map Button.as_str =
      ["a", "b", "x", "y", "l", "r", "zl", "zr", "plus", "minus", "home",
       "capture", "l_stick", "r_stick", "dpad_up", "dpad_down", "dpad_left",
       "dpad_right"] ∧
    (Button.ALL.map Button.as_str).Nodup ∧
    Button.ALL.Nodup ∧
    Button.ALL.length = 18 ∧
    (∀ b : Button, b ∈ Button.ALL) ∧
    (∀ b : Button,
      (ControllerState.new.set_button b true).map ControllerState.to_command =
        some ("STATE " ++ String.mk (List.ofFn
          (fun i : Fin 18 => if i.val = b.bitIndex then '1' else '0')))) := by
  refine ⟨by decide, by decide, by decide, by decide, by decide, by decide⟩

/-- C2: encoding the freshly constructed default state yields exactly
"STATE " followed by 18 zeros and no stick suffix. -/
theorem c2_default_state_command :
    ControllerState.new.to_command = "STATE 000000000000000000" := by
  decide

/-- C3: when the left stick is unset and the right stick is set,
to_command emits the literal placeholder pair 0.0 0.0 followed by the
right-stick pair in minimal form; in particular setting only the right
stick to (-1.0, 0.0) on a fresh state yields
"STATE 000000000000000000 0.0 0.0 -1 0". -/
theorem c3_right_stick_placeholder (s : ControllerState) (rh rv : ℚ)
    (hl : s.left_stick = none) (hr : s.right_stick = some (rh, rv)) :
    s.to_command =
      "STATE " ++ s.bits ++ " 0.0 0.0 " ++ fmtF32 rh ++ " " ++ fmtF32 rv ∧
    (ControllerState.new.set_right_stick (-1) 0).to_command =
      "STATE 000000000000000000 0.0 0.0 -1 0" := by
  constructor
  · obtain ⟨btns, ls, rs⟩ := s
    simp only at hl hr
    subst hl; subst hr
    rfl
  · decide

/-- C3 witness: the general placeholder equation applied at the concrete
right-stick-only state of the claim. -/
theorem c3_right_stick_placeholder_witness :
    (ControllerState.new.set_right_stick (-1) 0).to_command =
      "STATE " ++ (ControllerState.new.set_right_stick (-1) 0).bits ++
        " 0.0 0.0 " ++ fmtF32 (-1) ++ " " ++ fmtF32 0 :=
  (c3_right_stick_placeholder (ControllerState.new.set_right_stick (-1) 0)
    (-1) 0 rfl rfl).1

/-- C4: when the left stick is set, to_command appends the left pair in
minimal decimal form, and the right pair (same format) only after it;
the minimal formatter drops a trailing .0 (0 for 0.0, -1 for -1.0,
0.5 for 0.5); and button A with left stick (0.5, -1.0) yields
"STATE 100000000000000000 0.5 -1". -/
theorem c4_left_stick_formatting (s : ControllerState) (lh lv : ℚ)
    (hl : s.left_stick = some (lh, lv)) :
    s.to_command =
      "STATE " ++ s.bits ++ " " ++ fmtF32 lh ++ " " ++ fmtF32 lv ++
        (match s.right_stick with
         | some (rh, rv) => " " ++ fmtF32 rh ++ " " ++ fmtF32 rv
         | none => "") ∧
    fmtF32 0 = "0" ∧ fmtF32 (-1) = "-1" ∧ fmtF32 (mkRat 1 2) = "0.5" ∧
    ((ControllerState.new.set_button Button.A true).map
        (fun t => (t.set_left_stick (mkRat 1 2) (-1)).to_command)) =
      some "STATE 100000000000000000 0.5 -1" := by
  refine ⟨?_, by decide, by decide, by decide, by decide⟩
  obtain ⟨btns, ls, rs⟩ := s
  simp only at hl
  subst hl
  cases rs with
  | none =>
      simp only [ControllerState.to_command, String.append_empty]
  | some p =>
      obtain ⟨rh, rv⟩ := p
      simp only [ControllerState.to_command, String.append_assoc]

/-- C4 witness: the left-stick equation applied at a concrete state with
the left stick set to (0.5, -1.0), evaluated to the claim's string. -/
theorem c4_left_stick_formatting_witness :
    (ControllerState.new.set_left_stick (mkRat 1 2) (-1)).to_command =
      "STATE 000000000000000000 0.5 -1" := by
  have h := (c4_left_stick_formatting
    (ControllerState.new.set_left_stick (mkRat 1 2) (-1))
    (mkRat 1 2) (-1) rfl).1
  rw [h]
  decide

lemma noNL_stick_as_str (st : Stick) : noNL st.as_str := by
  cases st <;> decide

/-- C5: every encoded command starts with "STATE " followed by exactly 18
characters each 0 or 1, and with both sticks unset the output is exactly
that prefix and bit string with no suffix. -/
theorem c5_command_shape (s : ControllerState) :
    ∃ suffix : String,
      s.to_command = "STATE " ++ s.bits ++ suffix ∧
      s.bits.length = 18 ∧
      (∀ ch ∈ s.bits.data, ch = '0' ∨ ch = '1') ∧
      (s.left_stick = none → s.right_stick = none → suffix = "") := by
  obtain ⟨btns, ls, rs⟩ := s
  have hlen : (ControllerState.bits ⟨btns, ls, rs⟩).length = 18 := by
    simp [ControllerState.bits, String.length_mk, List.length_ofFn]
  have hch : ∀ ch ∈ (ControllerState.bits ⟨btns, ls, rs⟩).data, ch = '0' ∨ ch = '1' := by
    intro ch hc
    have hc2 : ch ∈ List.ofFn (fun i : Fin 18 => if btns i then '1' else '0') := hc
    obtain ⟨i, hi⟩ := (List.mem_ofFn _ _).mp hc2
    by_cases hb : btns i = true
    · simp only [hb, if_true] at hi
      exact Or.inr hi.symm
    · simp only [hb, if_false, Bool.false_eq_true] at hi
      exact Or.inl hi.symm
  cases ls with
  | none =>
      cases rs with
      | none =>
          exact ⟨"", by simp [ControllerState.to_command, String.append_empty],
            hlen, hch, fun _ _ => rfl⟩
      | some p =>
          obtain ⟨rh, rv⟩ := p
          exact ⟨" 0.0 0.0 " ++ fmtF32 rh ++ " " ++ fmtF32 rv,
            by simp [ControllerState.to_command, String.append_assoc],
            hlen, hch, fun _ h => Option.noConfusion h⟩
  | some p =>
      obtain ⟨lh, lv⟩ := p
      cases rs with
      | none =>
          exact ⟨" " ++ fmtF32 lh ++ " " ++ fmtF32 lv,
            by simp [ControllerState.to_command, String.append_assoc],
            hlen, hch, fun h _ => Option.noConfusion h⟩
      | some p2 =>
          obtain ⟨rh, rv⟩ := p2
          exact ⟨" " ++ fmtF32 lh ++ " " ++ fmtF32 lv ++ " " ++ fmtF32 rh ++
              " " ++ fmtF32 rv,
            by simp [ControllerState.to_command, String.append_assoc],
            hlen, hch, fun h _ => Option.noConfusion h⟩

/-- C5 witness: the shape theorem applied at the default state, where the
suffix is forced to be empty. -/
theorem c5_command_shape_witness :
    ControllerState.new.to_command = "STATE " ++ ControllerState.new.bits ++ "" ∧
    ControllerState.new.bits.length = 18 := by
  obtain ⟨suffix, heq, hlen, _, hempty⟩ := c5_command_shape ControllerState.new
  have hs : suffix = "" := hempty rfl rfl
  subst hs
  exact ⟨heq, hlen⟩

/-- C6: on a healthy transport, press writes exactly one chunk
"PRESS <names space-joined>\n" with a single newline, and hold and
release do the same with their keywords. -/
theorem c6_press_hold_release (c : SwitchController) (bs : List Button)
    (_hne : bs ≠ []) (hw : c.port.writeErr = none) (hf : c.port.flushErr = none) :
    c.press bs = Except.ok ⟨{ c.port with
      buffer := c.port.buffer ++ ["PRESS " ++ joinSpace (bs.map Button.as_str) ++ "\n"] }⟩ ∧
    c.hold bs = Except.ok ⟨{ c.port with
      buffer := c.port.buffer ++ ["HOLD " ++ joinSpace (bs.map Button.as_str) ++ "\n"] }⟩ ∧
    c.release bs = Except.ok ⟨{ c.port with
      buffer := c.port.buffer ++ ["RELEASE " ++ joinSpace (bs.map Button.as_str) ++ "\n"] }⟩ ∧
    List.count '\n' ("PRESS " ++ joinSpace (bs.map Button.as_str) ++ "\n").data = 1 := by
  have hnames : ∀ t ∈ bs.map Button.as_str, noNL t := by
    intro t ht
    obtain ⟨b, _, rfl⟩ := List.mem_map.mp ht
    exact noNL_as_str b
  have hcmd : noNL ("PRESS " ++ joinSpace (bs.map Button.as_str)) :=
    noNL_append (by decide) (noNL_joinSpace hnames)
  refine ⟨send_ok c _ hw hf, send_ok c _ hw hf, send_ok c _ hw hf, ?_⟩
  rw [data_append, List.count_append, List.count_eq_zero.mpr hcmd]
  decide

/-- C6 witness: pressing A on a fresh healthy transport writes exactly
the bytes "PRESS a\n". -/
theorem c6_press_hold_release_witness :
    SwitchController.press ⟨⟨[], none, none⟩⟩ [Button.A] =
      Except.ok ⟨⟨["PRESS a\n"], none, none⟩⟩ := by
  have h := (c6_press_hold_release ⟨⟨[], none, none⟩⟩ [Button.A]
    (by decide) rfl rfl).1
  rw [h]
  rfl

/-- What one send must do: on a healthy transport it appends exactly the
chunk cmd followed by one newline; a write failure or (after a clean
write) a flush failure is returned unmodified; and an error is returned
only when the write or the flush failed. -/
def sendSpec (c : SwitchController) (cmd : String)
    (r : Except TransportError SwitchController) : Prop :=
  (c.port.writeErr = none → c.port.flushErr = none →
    r = Except.ok ⟨{ c.port with buffer := c.port.buffer ++ [cmd ++ "\n"] }⟩) ∧
  (∀ e, c.port.writeErr = some e → r = Except.error e) ∧
  (∀ e, c.port.writeErr = none → c.port.flushErr = some e → r = Except.error e) ∧
  (∀ e, r = Except.error e →
    c.port.writeErr = some e ∨ (c.port.writeErr = none ∧ c.port.flushErr = some e))

/-- C7: every session operation is a single send of its command line:
send satisfies sendSpec (one newline-terminated chunk on success, write
or flush failures surfaced unmodified, errors only from those failures),
each of press, hold, release, stick, state and sleep is exactly one send
of its command string, and those command strings contain no newline, so
the sent line carries a single terminator. -/
theorem c7_session_send_contract (c : SwitchController) (bs : List Button)
    (st : Stick) (hq vq secs : ℚ) (cs : ControllerState) (cmd : String) :
    sendSpec c cmd (c.send cmd) ∧
    c.press bs = c.send ("PRESS " ++ joinSpace (bs.map Button.as_str)) ∧
    c.hold bs = c.send ("HOLD " ++ joinSpace (bs.map Button.as_str)) ∧
    c.release bs = c.send ("RELEASE " ++ joinSpace (bs.map Button.as_str)) ∧
    c.stick st hq vq =
      c.send ("STICK " ++ st.as_str ++ " " ++ fmtF32 hq ++ " " ++ fmtF32 vq) ∧
    c.state cs = c.send cs.to_command ∧
    c.sleep secs = c.send ("SLEEP " ++ fmtF32 secs) ∧
    noNL ("PRESS " ++ joinSpace (bs.map Button.as_str)) ∧
    noNL ("HOLD " ++ joinSpace (bs.map Button.as_str)) ∧
    noNL ("RELEASE " ++ joinSpace (bs.map Button.as_str)) ∧
    noNL ("STICK " ++ st.as_str ++ " " ++ fmtF32 hq ++ " " ++ fmtF32 vq) ∧
    noNL cs.to_command ∧
    noNL ("SLEEP " ++ fmtF32 secs) := by
  have hnames : ∀ t ∈ bs.map Button.as_str, noNL t := by
    intro t ht
    obtain ⟨b, _, rfl⟩ := List.mem_map.mp ht
    exact noNL_as_str b
  have hjoin : noNL (joinSpace (bs.map Button.as_str)) := noNL_joinSpace hnames
  refine ⟨⟨fun hw hf => send_ok c cmd hw hf,
      fun e hw => send_write_error c cmd e hw,
      fun e hw hf => send_flush_error c cmd e hw hf,
      fun e he => send_error_cases c cmd e he⟩,
    rfl, rfl, rfl, rfl, rfl, rfl,
    noNL_append (by decide) hjoin,
    noNL_append (by decide) hjoin,
    noNL_append (by decide) hjoin,
    noNL_append (noNL_append (noNL_append (noNL_append (noNL_append (by decide)
      (noNL_stick_as_str st)) (by decide)) (noNL_fmtF32 hq)) (by decide))
      (noNL_fmtF32 vq),
    noNL_to_command cs,
    noNL_append (by decide) (noNL_fmtF32 secs)⟩

/-- C7 witness: the send contract applied at concrete transports: a
failing write surfaces its error, a failing flush surfaces its error,
and a healthy transport gets exactly the one terminated line. -/
theorem c7_session_send_contract_witness :
    SwitchController.send ⟨⟨[], some ⟨7⟩, none⟩⟩ "SLEEP 1" = Except.error ⟨7⟩ ∧
    SwitchController.send ⟨⟨[], none, some ⟨9⟩⟩⟩ "SLEEP 1" = Except.error ⟨9⟩ ∧
    SwitchController.send ⟨⟨[], none, none⟩⟩ "SLEEP 1" =
      Except.ok ⟨⟨["SLEEP 1\n"], none, none⟩⟩ := by
  have h1 := (c7_session_send_contract ⟨⟨[], some ⟨7⟩, none⟩⟩ [] Stick.Left 0 0 0
    ControllerState.new "SLEEP 1").1
  have h2 := (c7_session_send_contract ⟨⟨[], none, some ⟨9⟩⟩⟩ [] Stick.Left 0 0 0
    ControllerState.new "SLEEP 1").1
  have h3 := (c7_session_send_contract ⟨⟨[], none, none⟩⟩ [] Stick.Left 0 0 0
    ControllerState.new "SLEEP 1").1
  refine ⟨h1.2.1 ⟨7⟩ rfl, h2.2.2.1 ⟨9⟩ rfl rfl, ?_⟩
  rw [h3.1 rfl rfl]
  rfl

/-- C8: the encoder is a pure total function of the state: it depends
only on the three state fields, so two calls on the same unmutated state
yield identical strings. -/
theorem c8_encoder_pure (s t : ControllerState) (hb : s.buttons = t.buttons)
    (hl : s.left_stick = t.left_stick) (hr : s.right_stick = t.right_stick) :
    s.to_command = t.to_command := by
  obtain ⟨b1, l1, r1⟩ := s
  obtain ⟨b2, l2, r2⟩ := t
  simp only at hb hl hr
  subst hb; subst hl; subst hr
  rfl

/-- C8 witness: the purity theorem applied to the default state twice. -/
theorem c8_encoder_pure_witness :
    ControllerState.new.to_command = ControllerState.new.to_command :=
  c8_encoder_pure ControllerState.new ControllerState.new rfl rfl rfl

/-- C9: set_button never fails (the canonical-table lookup always
succeeds), sets exactly the flag at the button's canonical bit position,
and leaves the other 17 flags and both stick fields unchanged. -/
theorem c9_set_button_frame (s : ControllerState) (b : Button) (pressed : Bool) :
    ∃ s' : ControllerState,
      s.set_button b pressed = some s' ∧
      (∀ j : Fin 18, j.val = b.bitIndex → s'.buttons j = pressed) ∧
      (∀ j : Fin 18, j.val ≠ b.bitIndex → s'.buttons j = s.buttons j) ∧
      s'.left_stick = s.left_stick ∧ s'.right_stick = s.right_stick := by
  refine ⟨{ s with
      buttons := fun j => if j.val = b.bitIndex then pressed else s.buttons j },
    ?_, ?_, ?_, rfl, rfl⟩
  · unfold ControllerState.set_button
    rw [findIdx_eq_bitIndex]
    exact dif_pos (bitIndex_lt b)
  · intro j hj
    simp [hj]
  · intro j hj
    simp [hj]

/-- C9 witness: setting button B to pressed on the default state sets
bit 1, leaves bit 0 false and both sticks unset. -/
theorem c9_set_button_frame_witness :
    (ControllerState.new.set_button Button.B true).map
      (fun s => (s.buttons 1, s.buttons 0, s.left_stick, s.right_stick)) =
      some (true, false, none, none) := by
  obtain ⟨s', hs, hset, hoth, hl, hr⟩ :=
    c9_set_button_frame ControllerState.new Button.B true
  have h1 : s'.buttons 1 = true := hset 1 (by decide)
  have h0 : s'.buttons 0 = false := (hoth 0 (by decide)).trans rfl
  rw [hs, Option.map_some', h1, h0, hl, hr]
  rfl

/-- C10: press, hold and release with an empty button list still send a
command: keyword, one trailing space, line terminator. -/
theorem c10_empty_button_list (c : SwitchController)
    (hw : c.port.writeErr = none) (hf : c.port.flushErr = none) :
    c.press [] =
      Except.ok ⟨{ c.port with buffer := c.port.buffer ++ ["PRESS \n"] }⟩ ∧
    c.hold [] =
      Except.ok ⟨{ c.port with buffer := c.port.buffer ++ ["HOLD \n"] }⟩ ∧
    c.release [] =
      Except.ok ⟨{ c.port with buffer := c.port.buffer ++ ["RELEASE \n"] }⟩ :=
  ⟨send_ok c _ hw hf, send_ok c _ hw hf, send_ok c _ hw hf⟩

/-- C10 witness: an empty press on a fresh healthy transport writes the
chunk "PRESS \n". -/
theorem c10_empty_button_list_witness :
    SwitchController.press ⟨⟨[], none, none⟩⟩ [] =
      Except.ok ⟨⟨["PRESS \n"], none, none⟩⟩ := by
  have h := (c10_empty_button_list ⟨⟨[], none, none⟩⟩ rfl rfl).1
  rw [h]
  rfl
